import Mathlib

/-!
Verification development for the vex-cli enforcement daemon.

The Go sources are shallowly embedded: pure fragments of each subsystem
become Lean functions over explicit state records, fallible operations
return `Except`, and kernel or filesystem side effects are represented by
explicit outcome parameters or event traces.  Machine integers are
modelled as `Int` (Go `int` is 64-bit on the target platform and none of
the verified paths approach overflow).
-/

namespace VexSpec

/-! ### Models of the Go standard-library string helpers

`strings.TrimSpace` and `strings.ToLower` are library functions used by
the guardian and writing-task code.  They are modelled here over the
character list of a `String`; only the ASCII behaviour matters for the
inputs the daemon handles (domains and typed phrases).
-/

/-- Model of Go `unicode.IsSpace` restricted to the ASCII range. -/
def goIsSpace (c : Char) : Bool :=
  c = ' ' || c = '\t' || c = '\n' || c = '\r' || c = '\x0b' || c = '\x0c'

/-- Model of Go `strings.TrimSpace`: drop whitespace from both ends. -/
def goTrimSpace (s : String) : String :=
  ⟨((s.data.dropWhile goIsSpace).reverse.dropWhile goIsSpace).reverse⟩

/-- Model of the per-character lowercasing performed by Go `strings.ToLower`
(ASCII range, matching `Char.toLower`). -/
def goCharToLower (c : Char) : Char :=
  if 65 ≤ c.toNat ∧ c.toNat ≤ 90 then Char.ofNat (c.toNat + 32) else c

/-- Model of Go `strings.ToLower`, applied characterwise. -/
def goToLower (s : String) : String :=
  ⟨s.data.map goCharToLower⟩

/-! ### internal/security — signed-command authorization

`IsRestrictionLoweringCommand` is translated verbatim from
`internal/security/security.go`.  `VerifyCommand` is modelled with the
Ed25519 primitive abstracted into a boolean oracle `ed25519Verify`
(key, message, hex signature); the oracle returning `false` covers both a
signature that fails to decode and one that fails curve verification,
either of which denies the command in the source.
-/

/-- Commands requiring signed authorization, per `IsRestrictionLoweringCommand`. -/
def isRestrictionLoweringCommand (command : String) : Bool :=
  command == "unlock" || command == "unblock" || command == "lift-throttle" ||
  command == "restore-network" || command == "clear-penance" || command == "set-standard"

structure SignedCommand where
  command : String
  args : String
  timestamp : Int
  signature : String
  deriving DecidableEq, Repr

/-- The message string signed by the management key. -/
def signedMessage (cmd : SignedCommand) : String :=
  cmd.command ++ ":" ++ cmd.args ++ ":" ++ toString cmd.timestamp

/-- Model of `security.VerifyCommand`: fail-closed when no key is loaded,
otherwise defer to Ed25519 verification of the reconstructed message. -/
def verifyCommand (managementKey : Option String)
    (ed25519Verify : String → String → String → Bool)
    (cmd : SignedCommand) : Except String Unit :=
  match managementKey with
  | none => Except.error "management key not loaded; all restricted commands are DENIED"
  | some key =>
      if ed25519Verify key (signedMessage cmd) cmd.signature then Except.ok ()
      else Except.error ("SIGNATURE VERIFICATION FAILED for command " ++ cmd.command)

inductive GateResult where
  | denied (msg : String)
  | proceed
  deriving DecidableEq, Repr

/-- Model of the authorization gate at the top of the vex-cli client main:
restricted commands must carry a parsable signed payload that verifies;
`payload = none` covers both a missing and an unparsable payload (both are
fatal in the source).  Non-restricted commands fall through to dispatch. -/
def authorizationGate (managementKey : Option String)
    (ed25519Verify : String → String → String → Bool)
    (command : String) (payload : Option SignedCommand) : GateResult :=
  if isRestrictionLoweringCommand command then
    match payload with
    | none => GateResult.denied "Restricted commands require a signed authorization payload"
    | some cmd =>
        match verifyCommand managementKey ed25519Verify cmd with
        | Except.error e => GateResult.denied ("AUTHORIZATION DENIED: " ++ e)
        | Except.ok _ => GateResult.proceed
  else GateResult.proceed

/-! ### internal/state — the unified SystemState record -/

structure NetworkState where
  profile : String
  packetLossPct : Int
  deriving DecidableEq, Repr

structure ComputeState where
  cpuLimitPct : Int
  oomScoreAdj : Int
  inputLatencyMs : Int
  deriving DecidableEq, Repr

structure GuardianState where
  firewallEnabled : Bool
  reaperEnabled : Bool
  blockedDomains : List String
  deriving DecidableEq, Repr

structure ComplianceInfo where
  locked : Bool
  failureScore : Int
  taskStatus : String
  deriving DecidableEq, Repr

structure WritingTask where
  active : Bool := false
  phrase : String := ""
  required : Int := 0
  completed : Int := 0
  deriving DecidableEq, Repr

structure SystemState where
  version : String
  lastUpdated : String
  changedBy : String
  network : NetworkState
  compute : ComputeState
  guardian : GuardianState
  compliance : ComplianceInfo
  writing : WritingTask
  deriving DecidableEq, Repr

/-- Model of `state.Default()`; the timestamp written by Go is abstracted. -/
def defaultState : SystemState where
  version := "1.0"
  lastUpdated := "startup"
  changedBy := "default"
  network := { profile := "standard", packetLossPct := 0 }
  compute := { cpuLimitPct := 100, oomScoreAdj := 0, inputLatencyMs := 0 }
  guardian := { firewallEnabled := false, reaperEnabled := true, blockedDomains := [] }
  compliance := { locked := false, failureScore := 0, taskStatus := "pending" }
  writing := {}

/-! ### internal/ipc — protocol types and the integer-argument helper -/

structure Request where
  command : String
  args : List (String × String)
  deriving DecidableEq, Repr

structure Response where
  ok : Bool
  message : String := ""
  error : String := ""
  state : Option SystemState := none
  deriving DecidableEq, Repr

/-- Decimal digit value of a character, if it is a digit. -/
def digitVal (c : Char) : Option Nat :=
  if 48 ≤ c.toNat ∧ c.toNat ≤ 57 then some (c.toNat - 48) else none

/-- Accumulate a non-empty all-digit run into a natural number. -/
def parseNatAcc : List Char → Nat → Option Nat
  | [], acc => some acc
  | c :: rest, acc =>
      match digitVal c with
      | none => none
      | some d => parseNatAcc rest (acc * 10 + d)

/-- Parse a non-empty digit string. -/
def parseNatDigits : List Char → Option Nat
  | [] => none
  | cs => parseNatAcc cs 0

/-- Model of Go `strconv.Atoi`: an optional sign followed by at least one
decimal digit (overflow, which only affects 19+ digit inputs, is not
modelled). -/
def goAtoi (s : String) : Option Int :=
  match s.data with
  | '+' :: rest => (parseNatDigits rest).map Int.ofNat
  | '-' :: rest => (parseNatDigits rest).map (fun n => -(Int.ofNat n))
  | cs => (parseNatDigits cs).map Int.ofNat

/-- Model of `ipc.ParseIntArg`. -/
def parseIntArg (args : List (String × String)) (key : String) : Except String Int :=
  match args.lookup key with
  | none => Except.error ("missing required argument: " ++ key)
  | some v =>
      match goAtoi v with
      | none => Except.error ("invalid integer for " ++ key)
      | some n => Except.ok n

/-! ### internal/throttler — cgroup v2 CPU governance -/

/-- Model of `throttler.SetCPULimit`: validates the percentage, then
produces the string written to cgroup v2 `cpu.max` (rather than writing
it).  `period = 100000`; 100 is written as the sentinel `max`. -/
def setCPULimit (limitPercent : Int) : Except String String :=
  if limitPercent < 0 ∨ limitPercent > 100 then
    Except.error ("invalid percentage: " ++ toString limitPercent)
  else
    let period : Int := 100000
    let quota : String :=
      if limitPercent = 100 then "max" else toString (limitPercent * period / 100)
    Except.ok (quota ++ " " ++ toString period)

/-! ### internal/surveillance — input-latency injection -/

/-- Model of `surveillance.InjectLatency`: returns the latency delay the
subsystem will apply from now on.  A negative request is clamped to zero
and the call still succeeds (the source never returns an error here). -/
def injectLatency (delayMs : Int) : Int × Except String Unit :=
  let clamped := if delayMs < 0 then 0 else delayMs
  (clamped, Except.ok ())

/-! ### vexd daemon — IPC command handlers

Handlers are translated from `cmd/vexd/main.go` with `dryRun = false`
(the default).  Each returns the successor state, the response, and a
representation of the kernel side effect it performed.
-/

/-- Model of `handleCPU`.  The third component is the string written to
`cpu.max` when the command succeeded. -/
def handleCPU (s : SystemState) (args : List (String × String)) :
    SystemState × Response × Option String :=
  match parseIntArg args "percent" with
  | Except.error e => (s, { ok := false, error := e }, none)
  | Except.ok pct =>
      match setCPULimit pct with
      | Except.error e =>
          (s, { ok := false, error := "failed to set CPU limit: " ++ e }, none)
      | Except.ok written =>
          let s1 := { s with compute := { s.compute with cpuLimitPct := pct },
                             changedBy := "cli" }
          (s1, { ok := true, message := "CPU limit set to " ++ toString pct ++ "%",
                 state := some s1 }, some written)

/-- Model of `handleLatency`.  The third component is the effective delay
installed in the surveillance subsystem (clamped at zero), while the state
records the raw requested value. -/
def handleLatency (s : SystemState) (args : List (String × String)) :
    SystemState × Response × Option Int :=
  match parseIntArg args "ms" with
  | Except.error e => (s, { ok := false, error := e }, none)
  | Except.ok ms =>
      let inj := injectLatency ms
      match inj.2 with
      | Except.error e =>
          (s, { ok := false, error := "failed to inject latency: " ++ e }, none)
      | Except.ok _ =>
          let s1 := { s with compute := { s.compute with inputLatencyMs := ms },
                             changedBy := "cli" }
          (s1, { ok := true, message := "Input latency set to " ++ toString ms ++ "ms",
                 state := some s1 }, some inj.1)

/-- Model of `handleState` (raw state dump, no mutation). -/
def handleState (s : SystemState) (_req : Request) : SystemState × Response :=
  (s, { ok := true, state := some s })

/-- Model of `handleLinesSubmit`: trimmed byte-for-byte comparison of the
submitted line against the assigned phrase. -/
def handleLinesSubmit (s : SystemState) (args : List (String × String)) :
    SystemState × Response :=
  if ¬ s.writing.active then
    (s, { ok := false, error := "no active writing task" })
  else
    match args.lookup "line" with
    | none => (s, { ok := false, error := "missing line argument" })
    | some rawLine =>
        let line := goTrimSpace rawLine
        let expected := goTrimSpace s.writing.phrase
        if line ≠ expected then
          (s, { ok := false, error := "Line does not match. Expected: " ++ expected })
        else
          let completed := s.writing.completed + 1
          let remaining := s.writing.required - completed
          if remaining ≤ 0 then
            let s1 := { s with writing := {}, changedBy := "cli" }
            (s1, { ok := true, message := "Writing task COMPLETE. Well done.",
                   state := some s1 })
          else
            let s1 := { s with
                        writing := { s.writing with completed := completed },
                        changedBy := "cli" }
            (s1, { ok := true,
                   message := "Line accepted. " ++ toString remaining ++ "/" ++
                     toString s.writing.required ++ " remaining.",
                   state := some s1 })

/-! ### internal/penance — the compliance record and its mutations -/

structure ComplianceStatus where
  failureScore : Int
  activeTask : String := ""
  taskStatus : String
  totalFailures : Int := 0
  totalCompleted : Int := 0
  locked : Bool
  deriving DecidableEq, Repr

/-- Default produced by `LoadComplianceStatus` when the file is absent. -/
def defaultComplianceStatus : ComplianceStatus where
  failureScore := 0
  taskStatus := "pending"
  locked := true

/-- Model of `penance.RecordFailure`: +10 to the score, no cap. -/
def recordFailure (cs : ComplianceStatus) : ComplianceStatus :=
  { cs with failureScore := cs.failureScore + 10,
            totalFailures := cs.totalFailures + 1,
            taskStatus := "failed",
            locked := true }

/-- Model of `penance.RecordCompletion`. -/
def recordCompletion (cs : ComplianceStatus) : ComplianceStatus :=
  { cs with totalCompleted := cs.totalCompleted + 1,
            taskStatus := "completed",
            locked := false }

/-- Model of the score-resetting core of `handleResetScore`. -/
def resetScore (cs : ComplianceStatus) : ComplianceStatus :=
  { cs with failureScore := 0, totalFailures := 0 }

/-! ### internal/antitamper — escalation with cooldown and cap

Time is modelled in seconds as `Nat`; `lastEscalation = none` models the
zero `time.Time`.  The compliance file load/save inside `escalate` is
modelled as succeeding.
-/

def escalationCooldown : Nat := 30 * 60

def maxFailureScore : Int := 500

/-- The score update performed by a non-suppressed escalation:
a zero score becomes the 50-point minimum penalty, any other score is
doubled, and the result is capped at `maxFailureScore`. -/
def escalateScore (s : Int) : Int :=
  let doubled := if s = 0 then 50 else s * 2
  if doubled > maxFailureScore then maxFailureScore else doubled

structure TamperState where
  cs : ComplianceStatus
  networkProfile : String
  lastEscalation : Option Nat
  deriving DecidableEq, Repr

/-- The actions of a non-suppressed escalation: black-hole the network,
update and persist the compliance record, stamp the escalation time. -/
def escalateActions (now : Nat) (st : TamperState) : TamperState :=
  { cs := { st.cs with
              failureScore := escalateScore st.cs.failureScore,
              locked := true,
              taskStatus := "failed" },
    networkProfile := "black-hole",
    lastEscalation := some now }

/-- Model of `antitamper.escalate`.  The boolean reports whether the
escalation went through (false when the cooldown suppressed it). -/
def escalate (now : Nat) (st : TamperState) : TamperState × Bool :=
  match st.lastEscalation with
  | some t =>
      if now - t < escalationCooldown then (st, false)
      else (escalateActions now st, true)
  | none => (escalateActions now st, true)

/-- Run a sequence of escalation attempts at the given times, collecting
the times at which the escalation actually went through. -/
def runEscalations (st : TamperState) : List Nat → TamperState × List Nat
  | [] => (st, [])
  | t :: ts =>
      let step := escalate t st
      let rest := runEscalations step.1 ts
      (rest.1, if step.2 then t :: rest.2 else rest.2)

/-! ### internal/guardian — the domain blocklist

The nftables rebuild performed by `rebuildFirewall` is abstracted into a
predicate `rebuildOk` on the domain list it is asked to install, and the
table clear into a boolean `clearOk`.
-/

/-- Normalization applied by `AddDomain`/`RemoveDomain`:
`strings.ToLower(strings.TrimSpace(domain))`. -/
def normalizeDomain (d : String) : String := goToLower (goTrimSpace d)

/-- Model of `guardian.AddDomain`: returns the new blocklist and either
an error, `ok false` (already present), or `ok true` (added). -/
def addDomain (rebuildOk : List String → Bool) (active : List String)
    (domain : String) : List String × Except String Bool :=
  let d := normalizeDomain domain
  if d = "" then (active, Except.error "empty domain")
  else if d ∈ active then (active, Except.ok false)
  else
    let grown := active ++ [d]
    if rebuildOk grown then (grown, Except.ok true)
    else (active, Except.error "failed to apply firewall rules")

/-- Model of `guardian.RemoveDomain`, including the clear-instead-of-rebuild
path when the last domain is removed.  The rollback is modelled with Go
slice semantics: `old := activeDomains` copies only the slice header, and
the in-place `append(activeDomains[:idx], activeDomains[idx+1:]...)`
(capacity always suffices, so it never reallocates) shifts the shared
backing array left.  Restoring `old` after a failed rebuild or clear
therefore yields the erased list with the final element of the original
list appended once more — the original list again exactly when the
removed (first) occurrence was the final element. -/
def removeDomain (rebuildOk : List String → Bool) (clearOk : Bool)
    (active : List String) (domain : String) : List String × Except String Bool :=
  let d := normalizeDomain domain
  if d ∈ active then
    let pruned := active.erase d
    let oldRestored := pruned ++ active.drop (active.length - 1)
    if pruned.isEmpty then
      if clearOk then (pruned, Except.ok true)
      else (oldRestored, Except.error "failed to clear firewall")
    else
      if rebuildOk pruned then (pruned, Except.ok true)
      else (oldRestored, Except.error "failed to apply firewall rules")
  else (active, Except.ok false)

/-- A blocklist command issued through the IPC interface. -/
inductive BlockCmd where
  | add (domain : String)
  | remove (domain : String)
  deriving DecidableEq, Repr

/-- Effect of one blocklist command on the in-memory domain set. -/
def applyBlockCmd (rebuildOk : List String → Bool) (clearOk : Bool)
    (active : List String) : BlockCmd → List String
  | BlockCmd.add d => (addDomain rebuildOk active d).1
  | BlockCmd.remove d => (removeDomain rebuildOk clearOk active d).1

/-- Effect of a sequence of blocklist commands. -/
def runBlockCmds (rebuildOk : List String → Bool) (clearOk : Bool)
    (active : List String) (cmds : List BlockCmd) : List String :=
  cmds.foldl (applyBlockCmd rebuildOk clearOk) active

/-! ### internal/ipc — the server request loop -/

inductive ServerEvent where
  | saveAttempt (persisted : SystemState) (failed : Bool)
  | respond (r : Response)
  deriving DecidableEq, Repr

/-- The `last_updated` stamp applied by `state.Save` (set in memory even
when the disk write subsequently fails). -/
def stampState (now : String) (s : SystemState) : SystemState :=
  { s with lastUpdated := now }

/-- Model of `Server.handle` for a decoded request: look up the handler,
run it, persist the (stamped) state, then send the response.  The event
list records the order of the externally visible actions; a persistence
failure is logged only and never alters the response. -/
def serverHandle (handler : Option (SystemState → Request → SystemState × Response))
    (st : SystemState) (req : Request) (saveFails : Bool) (now : String) :
    SystemState × Response × List ServerEvent :=
  match handler with
  | none =>
      let resp : Response := { ok := false, error := "unknown command: " ++ req.command }
      (st, resp, [ServerEvent.respond resp])
  | some h =>
      let hr := h st req
      let stamped := stampState now hr.1
      (stamped, hr.2, [ServerEvent.saveAttempt stamped saveFails, ServerEvent.respond hr.2])

/-! ### Specification-side definitions used for comparison -/

/-- Score update as claim C2 reads the specification sentence: double the
previous value, subject to a floor of 50 on the first escalation and a
cap of 500.  This definition follows the claim wording, for comparison
with `escalateScore` translated from the source. -/
def claimFloorOnFirstScore (firstEscalation : Bool) (s : Int) : Int :=
  let doubled := min (2 * s) 500
  if firstEscalation then max 50 doubled else doubled

/-- The blocklist invariant of claim C8: entries are lowercase and the
list is duplicate-free. -/
def lowercaseNodup (l : List String) : Prop :=
  (∀ d ∈ l, goToLower d = d) ∧ l.Nodup

/-- Helper turning the optional last-escalation stamp into a list, to
state the separation property of escalation times uniformly. -/
def optTime : Option Nat → List Nat
  | none => []
  | some t => [t]

/-! ### String-model lemmas -/

theorem goCharToLower_toNat_of_upper {c : Char} (h : 65 ≤ c.toNat ∧ c.toNat ≤ 90) :
    (goCharToLower c).toNat = c.toNat + 32 := by
  have hvalid : (c.toNat + 32).isValidChar := by
    left
    omega
  rw [goCharToLower, if_pos h, Char.ofNat, dif_pos hvalid]
  rfl

theorem goCharToLower_idem (c : Char) : goCharToLower (goCharToLower c) = goCharToLower c := by
  by_cases h : 65 ≤ c.toNat ∧ c.toNat ≤ 90
  · have htn := goCharToLower_toNat_of_upper h
    have hnot : ¬ (65 ≤ (goCharToLower c).toNat ∧ (goCharToLower c).toNat ≤ 90) := by
      rw [htn]
      omega
    conv in goCharToLower (goCharToLower c) => rw [goCharToLower]
    rw [if_neg hnot]
  · conv in goCharToLower (goCharToLower c) => rw [goCharToLower]
    rw [goCharToLower, if_neg h, if_neg h]

theorem goToLower_idem (s : String) : goToLower (goToLower s) = goToLower s := by
  have hcomp : goCharToLower ∘ goCharToLower = goCharToLower := funext goCharToLower_idem
  simp [goToLower, List.map_map, hcomp]

theorem normalizeDomain_lower (d : String) :
    goToLower (normalizeDomain d) = normalizeDomain d := by
  rw [normalizeDomain, goToLower_idem]

/-! ### Claim theorems -/

/-- C1: the claimed restricted set includes reset-score, but
`IsRestrictionLoweringCommand` omits it, so the authorization gate lets a
reset-score command through with any key state and any (even absent)
payload, performing no signature verification at all; the other six
commands of the set are denied whenever no management key is loaded.
This contradicts the binary's own usage text, which says reset-score
requires signed authorization. -/
theorem resetScore_authorization_gap :
    (∀ key ver payload,
        authorizationGate key ver "reset-score" payload = GateResult.proceed) ∧
    (∀ ver payload c,
        c ∈ (["unlock", "unblock", "lift-throttle", "restore-network",
              "clear-penance", "set-standard"] : List String) →
        authorizationGate none ver c payload ≠ GateResult.proceed) := by
  constructor
  · intro key ver payload
    rfl
  · intro ver payload c hc
    fin_cases hc <;>
      cases payload <;>
        simp [authorizationGate, isRestrictionLoweringCommand, verifyCommand]

/-- C2 counterexample: at the first escalation from a failure score of 10
(reachable by one recorded failure), the code doubles to 20, while the
claimed floor of 50 on the first escalation demands 50. -/
theorem escalate_firstFloor_counterexample :
    (escalate 0
        { cs := { failureScore := 10, taskStatus := "failed", locked := true },
          networkProfile := "standard",
          lastEscalation := none }).1.cs.failureScore = 20 ∧
    claimFloorOnFirstScore true 10 = 50 ∧ (20 : Int) ≠ 50 := by
  refine ⟨rfl, by decide, by decide⟩

/-- C2 (amended): whenever the cooldown allows it (no previous escalation,
or at least 30 minutes since the last one), escalate applies the
black-hole network profile, replaces the failure score with 50 when it was
zero and with double the previous value capped at 500 otherwise, sets
locked and task_status=failed, persists the record, and stamps the
last-escalation time. -/
theorem escalate_actions_spec (now : Nat) (st : TamperState)
    (h : st.lastEscalation = none ∨
         ∃ t, st.lastEscalation = some t ∧ escalationCooldown ≤ now - t) :
    escalate now st =
      ({ cs := { st.cs with
                   failureScore := if st.cs.failureScore = 0 then 50
                                   else min (2 * st.cs.failureScore) 500,
                   locked := true,
                   taskStatus := "failed" },
         networkProfile := "black-hole",
         lastEscalation := some now }, true) := by
  have hscore : escalateScore st.cs.failureScore =
      if st.cs.failureScore = 0 then 50
      else min (2 * st.cs.failureScore) 500 := by
    by_cases h0 : st.cs.failureScore = 0
    · simp [escalateScore, h0, maxFailureScore]
    · simp only [escalateScore, maxFailureScore, if_neg h0]
      split <;> omega
  have hact : escalateActions now st =
      { cs := { st.cs with
                  failureScore := if st.cs.failureScore = 0 then 50
                                  else min (2 * st.cs.failureScore) 500,
                  locked := true,
                  taskStatus := "failed" },
        networkProfile := "black-hole",
        lastEscalation := some now } := by
    rw [escalateActions, hscore]
  rcases h with hnone | ⟨t, hsome, hcool⟩
  · rw [escalate, hnone, hact]
  · rw [escalate, hsome]
    show (if now - t < escalationCooldown then (st, false)
          else (escalateActions now st, true)) = _
    rw [if_neg (Nat.not_lt.mpr hcool), hact]

/-- Witness for `escalate_actions_spec` at a concrete first escalation. -/
theorem escalate_actions_spec_witness :
    (({ cs := defaultComplianceStatus, networkProfile := "standard",
        lastEscalation := none } : TamperState).lastEscalation = none ∨
      ∃ t, ({ cs := defaultComplianceStatus, networkProfile := "standard",
              lastEscalation := none } : TamperState).lastEscalation = some t ∧
           escalationCooldown ≤ 5 - t) ∧
    escalate 5 { cs := defaultComplianceStatus, networkProfile := "standard",
                 lastEscalation := none } =
      ({ cs := { defaultComplianceStatus with
                   failureScore :=
                     if defaultComplianceStatus.failureScore = 0 then 50
                     else min (2 * defaultComplianceStatus.failureScore) 500,
                   locked := true,
                   taskStatus := "failed" },
         networkProfile := "black-hole",
         lastEscalation := some 5 }, true) :=
  ⟨Or.inl rfl,
   escalate_actions_spec 5
     { cs := defaultComplianceStatus, networkProfile := "standard",
       lastEscalation := none } (Or.inl rfl)⟩

/-- C4 counterexample: the cpu command does not reject percent 0 — the
handler accepts it and writes the encoding for a zero quota. -/
theorem handleCPU_zero_accepted :
    (handleCPU defaultState [("percent", "0")]).2.1.ok = true ∧
    (handleCPU defaultState [("percent", "0")]).2.2 = some "0 100000" :=
  ⟨rfl, rfl⟩

/-- C4 (amended): percent 101 (and any percent outside 0..100) is
rejected with an error; percent 100 writes the sentinel encoding
`max 100000`; every other accepted percent p — including 0, which is not
rejected — writes `<quota> <period>` with period = 100000 and
quota = p * period / 100. -/
theorem handleCPU_spec (s : SystemState) (args : List (String × String))
    (v : String) (p : Int)
    (hlook : args.lookup "percent" = some v) (hparse : goAtoi v = some p) :
    (p < 0 ∨ 100 < p →
      (handleCPU s args).2.1.ok = false ∧
      (handleCPU s args).1 = s ∧
      (handleCPU s args).2.2 = none) ∧
    (p = 100 →
      (handleCPU s args).2.2 = some "max 100000" ∧
      (handleCPU s args).2.1.ok = true) ∧
    (0 ≤ p → p < 100 →
      (handleCPU s args).2.2 =
        some (toString (p * 100000 / 100) ++ " " ++ toString (100000 : Int)) ∧
      (handleCPU s args).2.1.ok = true ∧
      (handleCPU s args).1.compute.cpuLimitPct = p) := by
  have hargs : parseIntArg args "percent" = Except.ok p := by
    simp [parseIntArg, hlook, hparse]
  refine ⟨?_, ?_, ?_⟩
  · intro hout
    have hrej : setCPULimit p =
        Except.error ("invalid percentage: " ++ toString p) := by
      rw [setCPULimit, if_pos (by omega)]
    simp [handleCPU, hargs, hrej]
  · intro h100
    subst h100
    have hok : setCPULimit 100 = Except.ok "max 100000" := by rfl
    simp [handleCPU, hargs, hok]
  · intro h0 hlt
    have hok : setCPULimit p =
        Except.ok (toString (p * 100000 / 100) ++ " " ++ toString (100000 : Int)) := by
      have hg : ¬ (p < 0 ∨ 100 < p) := by omega
      have h100 : ¬ (p = 100) := by omega
      simp [setCPULimit, hg, h100]
    simp [handleCPU, hargs, hok]

/-- Witness for `handleCPU_spec` at percent 50. -/
theorem handleCPU_spec_witness :
    ([("percent", "50")] : List (String × String)).lookup "percent" = some "50" ∧
    goAtoi "50" = some 50 ∧
    (0 ≤ (50 : Int) → (50 : Int) < 100 →
      (handleCPU defaultState [("percent", "50")]).2.2 =
        some (toString ((50 : Int) * 100000 / 100) ++ " " ++ toString (100000 : Int)) ∧
      (handleCPU defaultState [("percent", "50")]).2.1.ok = true ∧
      (handleCPU defaultState [("percent", "50")]).1.compute.cpuLimitPct = 50) :=
  ⟨rfl, rfl,
   (handleCPU_spec defaultState [("percent", "50")] "50" 50 rfl rfl).2.2⟩

/-- C5 counterexample: the failure score is not capped at 500 by
record_failure — 51 consecutive recorded failures from the default record
drive the score to 510. -/
theorem recordFailure_exceeds_cap :
    (recordFailure^[51] defaultComplianceStatus).failureScore = 510 ∧
    ¬ ((510 : Int) ≤ 500) :=
  ⟨rfl, by decide⟩

/-- C5 (amended): all three operations keep the score non-negative, and
escalation keeps it within the 500 cap; record_failure adds exactly 10
with no cap, so the score can exceed 500; reset returns it to 0. -/
theorem complianceScore_bounds (cs : ComplianceStatus)
    (h : 0 ≤ cs.failureScore) :
    0 ≤ (recordFailure cs).failureScore ∧
    (recordFailure cs).failureScore = cs.failureScore + 10 ∧
    0 ≤ escalateScore cs.failureScore ∧
    escalateScore cs.failureScore ≤ 500 ∧
    (resetScore cs).failureScore = 0 := by
  refine ⟨by simp [recordFailure]; omega, by simp [recordFailure], ?_, ?_, by simp [resetScore]⟩
  · rw [escalateScore]
    simp only [maxFailureScore]
    split <;> split <;> omega
  · rw [escalateScore]
    simp only [maxFailureScore]
    split <;> split <;> omega

/-- Witness for `complianceScore_bounds` at the default record. -/
theorem complianceScore_bounds_witness :
    0 ≤ defaultComplianceStatus.failureScore ∧
    (0 ≤ (recordFailure defaultComplianceStatus).failureScore ∧
     (recordFailure defaultComplianceStatus).failureScore =
       defaultComplianceStatus.failureScore + 10 ∧
     0 ≤ escalateScore defaultComplianceStatus.failureScore ∧
     escalateScore defaultComplianceStatus.failureScore ≤ 500 ∧
     (resetScore defaultComplianceStatus).failureScore = 0) :=
  ⟨by decide, complianceScore_bounds defaultComplianceStatus (by decide)⟩

/-- C9 counterexample: a latency request with negative ms is not
rejected — the handler reports success and persists the negative value in
compute.input_latency_ms. -/
theorem handleLatency_negative_accepted :
    (handleLatency defaultState [("ms", "-5")]).2.1.ok = true ∧
    (handleLatency defaultState [("ms", "-5")]).1.compute.inputLatencyMs = -5 :=
  ⟨rfl, rfl⟩

/-- C9 (amended): the latency command accepts any integer ms; the
surveillance subsystem clamps a negative request to an effective delay of
0 (so the injected delay is always ≥ 0), but the handler stores the raw
requested value, so the persisted compute.input_latency_ms equals ms and
can be negative. -/
theorem handleLatency_spec (s : SystemState) (args : List (String × String))
    (v : String) (ms : Int)
    (hlook : args.lookup "ms" = some v) (hparse : goAtoi v = some ms) :
    (handleLatency s args).2.1.ok = true ∧
    (handleLatency s args).1.compute.inputLatencyMs = ms ∧
    (handleLatency s args).2.2 = some (if ms < 0 then 0 else ms) ∧
    (∀ d, (handleLatency s args).2.2 = some d → 0 ≤ d) := by
  have hargs : parseIntArg args "ms" = Except.ok ms := by
    simp [parseIntArg, hlook, hparse]
  rw [handleLatency, hargs]
  refine ⟨rfl, rfl, rfl, ?_⟩
  intro d hd
  simp only [injectLatency, Option.some.injEq] at hd
  split at hd <;> omega

/-- Witness for `handleLatency_spec` at ms = -5. -/
theorem handleLatency_spec_witness :
    ([("ms", "-5")] : List (String × String)).lookup "ms" = some "-5" ∧
    goAtoi "-5" = some (-5) ∧
    ((handleLatency defaultState [("ms", "-5")]).2.1.ok = true ∧
     (handleLatency defaultState [("ms", "-5")]).1.compute.inputLatencyMs = -5 ∧
     (handleLatency defaultState [("ms", "-5")]).2.2 =
       some (if (-5 : Int) < 0 then 0 else -5) ∧
     (∀ d, (handleLatency defaultState [("ms", "-5")]).2.2 = some d → 0 ≤ d)) :=
  ⟨rfl, rfl, handleLatency_spec defaultState [("ms", "-5")] "-5" (-5) rfl rfl⟩

/-- C10: for every request dispatched to a registered handler — read-only
handlers and handlers answering ok:false included — the server persists
the full stamped SystemState before writing the response, and a
persistence failure leaves the handler's response unchanged. -/
theorem serverHandle_persists (h : SystemState → Request → SystemState × Response)
    (handler : Option (SystemState → Request → SystemState × Response))
    (st : SystemState) (req : Request) (saveFails : Bool) (now : String)
    (hh : handler = some h) :
    serverHandle handler st req saveFails now =
      (stampState now (h st req).1, (h st req).2,
       [ServerEvent.saveAttempt (stampState now (h st req).1) saveFails,
        ServerEvent.respond (h st req).2]) ∧
    (serverHandle handler st req saveFails now).2.1 =
      (serverHandle handler st req true now).2.1 ∧
    (stampState now (h st req).1).lastUpdated = now := by
  subst hh
  exact ⟨rfl, rfl, rfl⟩

/-- Witness for `serverHandle_persists`: the read-only state handler with
a failing persistence attempt. -/
theorem serverHandle_persists_witness :
    (some handleState = some handleState) ∧
    (serverHandle (some handleState) defaultState
        { command := "state", args := [] } true "t1" =
      (stampState "t1" (handleState defaultState { command := "state", args := [] }).1,
       (handleState defaultState { command := "state", args := [] }).2,
       [ServerEvent.saveAttempt
          (stampState "t1" (handleState defaultState { command := "state", args := [] }).1)
          true,
        ServerEvent.respond
          (handleState defaultState { command := "state", args := [] }).2]) ∧
     (serverHandle (some handleState) defaultState
         { command := "state", args := [] } true "t1").2.1 =
       (serverHandle (some handleState) defaultState
           { command := "state", args := [] } true "t1").2.1 ∧
     (stampState "t1"
         (handleState defaultState { command := "state", args := [] }).1).lastUpdated =
       "t1") :=
  ⟨rfl,
   serverHandle_persists handleState (some handleState) defaultState
     { command := "state", args := [] } true "t1" rfl⟩

/-- C6: the claim holds for block-add (a failed rebuild pops the appended
entry, restoring the pre-command list) but fails for block-rm: `old`
aliases the backing array that the in-place append has already shifted,
so when the removed entry is not the final element a failed rebuild
restores a corrupted list — the removed domain is lost and the final
domain is duplicated.  Evaluating the model at the failing input: from
[a,b,c], a block-rm of a.example whose rebuild fails leaves [b,c,c], not
[a,b,c], while reporting the error; the same command on the final
element c.example does restore the original list; and a failed block-add
restores the original list as claimed. -/
theorem removeDomain_aliasing_bug :
    removeDomain (fun _ => false) true
        ["a.example", "b.example", "c.example"] "a.example" =
      (["b.example", "c.example", "c.example"],
       Except.error "failed to apply firewall rules") ∧
    (["b.example", "c.example", "c.example"] : List String) ≠
      ["a.example", "b.example", "c.example"] ∧
    removeDomain (fun _ => false) true
        ["a.example", "b.example", "c.example"] "c.example" =
      (["a.example", "b.example", "c.example"],
       Except.error "failed to apply firewall rules") ∧
    addDomain (fun _ => false) ["a.example"] "b.example" =
      (["a.example"], Except.error "failed to apply firewall rules") :=
  ⟨rfl, by decide, rfl, rfl⟩

/-- C7: with an active writing task, lines-submit compares the trimmed
line to the trimmed phrase byte-for-byte.  A mismatch is rejected and the
state is left untouched.  A match increments completed; when completed
reaches required the task transitions to inactive with required =
completed = 0 and an empty phrase and the response announces completion,
otherwise only the counter advances. -/
theorem linesSubmit_spec (s : SystemState) (args : List (String × String))
    (rawLine : String)
    (hactive : s.writing.active = true)
    (hline : args.lookup "line" = some rawLine) :
    (goTrimSpace rawLine ≠ goTrimSpace s.writing.phrase →
      handleLinesSubmit s args =
        (s, { ok := false,
              error := "Line does not match. Expected: " ++ goTrimSpace s.writing.phrase })) ∧
    (goTrimSpace rawLine = goTrimSpace s.writing.phrase →
      (s.writing.completed + 1 = s.writing.required →
        handleLinesSubmit s args =
          ({ s with writing := { active := false, phrase := "", required := 0,
                                 completed := 0 },
                    changedBy := "cli" },
           { ok := true, message := "Writing task COMPLETE. Well done.",
             state := some { s with
                             writing := { active := false, phrase := "",
                                          required := 0, completed := 0 },
                             changedBy := "cli" } })) ∧
      (s.writing.completed + 1 < s.writing.required →
        handleLinesSubmit s args =
          ({ s with writing := { s.writing with completed := s.writing.completed + 1 },
                    changedBy := "cli" },
           { ok := true,
             message := "Line accepted. " ++
               toString (s.writing.required - (s.writing.completed + 1)) ++ "/" ++
               toString s.writing.required ++ " remaining.",
             state := some { s with
                             writing := { s.writing with
                                          completed := s.writing.completed + 1 },
                             changedBy := "cli" } }))) := by
  refine ⟨?_, ?_⟩
  · intro hne
    simp [handleLinesSubmit, hactive, hline, hne]
  · intro heq
    refine ⟨?_, ?_⟩
    · intro hdone
      have hrem : s.writing.required - (s.writing.completed + 1) ≤ 0 := by omega
      simp [handleLinesSubmit, hactive, hline, heq, hrem]
    · intro hmore
      have hrem : ¬ (s.writing.required - (s.writing.completed + 1) ≤ 0) := by omega
      simp [handleLinesSubmit, hactive, hline, heq, hrem]

/-- Witness for `linesSubmit_spec`: submitting the exact phrase (with
surrounding whitespace) against a two-line task. -/
theorem linesSubmit_spec_witness :
    (({ defaultState with
        writing := { active := true, phrase := "I obey", required := 2,
                     completed := 0 } } : SystemState).writing.active = true) ∧
    ([("line", " I obey ")] : List (String × String)).lookup "line" =
      some " I obey " ∧
    (goTrimSpace " I obey " =
        goTrimSpace ({ defaultState with
                       writing := { active := true, phrase := "I obey",
                                    required := 2,
                                    completed := 0 } } : SystemState).writing.phrase →
      (({ defaultState with
          writing := { active := true, phrase := "I obey", required := 2,
                       completed := 0 } } : SystemState).writing.completed + 1 =
          ({ defaultState with
             writing := { active := true, phrase := "I obey", required := 2,
                          completed := 0 } } : SystemState).writing.required →
        handleLinesSubmit
            { defaultState with
              writing := { active := true, phrase := "I obey", required := 2,
                           completed := 0 } } [("line", " I obey ")] =
          ({ { defaultState with
               writing := { active := true, phrase := "I obey", required := 2,
                            completed := 0 } } with
             writing := { active := false, phrase := "", required := 0,
                          completed := 0 },
             changedBy := "cli" },
           { ok := true, message := "Writing task COMPLETE. Well done.",
             state := some { { defaultState with
                               writing := { active := true, phrase := "I obey",
                                            required := 2, completed := 0 } } with
                             writing := { active := false, phrase := "",
                                          required := 0, completed := 0 },
                             changedBy := "cli" } })) ∧
      (({ defaultState with
          writing := { active := true, phrase := "I obey", required := 2,
                       completed := 0 } } : SystemState).writing.completed + 1 <
          ({ defaultState with
             writing := { active := true, phrase := "I obey", required := 2,
                          completed := 0 } } : SystemState).writing.required →
        handleLinesSubmit
            { defaultState with
              writing := { active := true, phrase := "I obey", required := 2,
                           completed := 0 } } [("line", " I obey ")] =
          ({ { defaultState with
               writing := { active := true, phrase := "I obey", required := 2,
                            completed := 0 } } with
             writing := { ({ defaultState with
                             writing := { active := true, phrase := "I obey",
                                          required := 2,
                                          completed := 0 } } : SystemState).writing with
                          completed := ({ defaultState with
                                          writing := { active := true,
                                                       phrase := "I obey",
                                                       required := 2,
                                                       completed := 0 } } : SystemState).writing.completed + 1 },
             changedBy := "cli" },
           { ok := true,
             message := "Line accepted. " ++
               toString (({ defaultState with
                            writing := { active := true, phrase := "I obey",
                                         required := 2,
                                         completed := 0 } } : SystemState).writing.required -
                 (({ defaultState with
                     writing := { active := true, phrase := "I obey",
                                  required := 2,
                                  completed := 0 } } : SystemState).writing.completed + 1)) ++
               "/" ++
               toString ({ defaultState with
                           writing := { active := true, phrase := "I obey",
                                        required := 2,
                                        completed := 0 } } : SystemState).writing.required ++
               " remaining.",
             state := some { { defaultState with
                               writing := { active := true, phrase := "I obey",
                                            required := 2, completed := 0 } } with
                             writing := { ({ defaultState with
                                             writing := { active := true,
                                                          phrase := "I obey",
                                                          required := 2,
                                                          completed := 0 } } : SystemState).writing with
                                          completed := ({ defaultState with
                                                          writing := { active := true,
                                                                       phrase := "I obey",
                                                                       required := 2,
                                                                       completed := 0 } } : SystemState).writing.completed + 1 },
                             changedBy := "cli" } }))) :=
  ⟨rfl, rfl,
   (linesSubmit_spec
      { defaultState with
        writing := { active := true, phrase := "I obey", required := 2,
                     completed := 0 } } [("line", " I obey ")] " I obey "
      rfl rfl).2⟩

/-! ### Blocklist invariant lemmas -/

theorem addDomain_fst_inv (rebuildOk : List String → Bool)
    (active : List String) (domain : String) (h : lowercaseNodup active) :
    lowercaseNodup (addDomain rebuildOk active domain).1 := by
  by_cases h1 : normalizeDomain domain = ""
  · simpa [addDomain, h1] using h
  · by_cases h2 : normalizeDomain domain ∈ active
    · simpa [addDomain, h1, h2] using h
    · by_cases h3 : rebuildOk (active ++ [normalizeDomain domain]) = true
      · simp only [addDomain, h1, h2, h3, if_false, if_true, ite_false, ite_true]
        obtain ⟨hlow, hnd⟩ := h
        constructor
        · intro d hd
          rcases List.mem_append.mp hd with hmem | hmem
          · exact hlow d hmem
          · have hde : d = normalizeDomain domain := by simpa using hmem
            rw [hde]
            exact normalizeDomain_lower domain
        · have : (active ++ [normalizeDomain domain]).Nodup := by
            rw [List.nodup_append]
            exact ⟨hnd, List.nodup_singleton _, by simpa using h2⟩
          simpa using this
      · simpa [addDomain, h1, h2, h3] using h

theorem addDomain_fst_cases (rebuildOk : List String → Bool)
    (active : List String) (domain : String) :
    (addDomain rebuildOk active domain).1 = active ∨
    (addDomain rebuildOk active domain).1 = active ++ [normalizeDomain domain] := by
  by_cases h1 : normalizeDomain domain = ""
  · left
    simp [addDomain, h1]
  · by_cases h2 : normalizeDomain domain ∈ active
    · left
      simp [addDomain, h1, h2]
    · by_cases h3 : rebuildOk (active ++ [normalizeDomain domain]) = true
      · right
        simp [addDomain, h1, h2, h3]
      · left
        simp [addDomain, h1, h2, h3]

theorem removeDomain_fst_cases (rebuildOk : List String → Bool) (clearOk : Bool)
    (active : List String) (domain : String) :
    (removeDomain rebuildOk clearOk active domain).1 = active ∨
    (removeDomain rebuildOk clearOk active domain).1 =
      active.erase (normalizeDomain domain) ∨
    (removeDomain rebuildOk clearOk active domain).1 =
      active.erase (normalizeDomain domain) ++ active.drop (active.length - 1) := by
  by_cases h1 : normalizeDomain domain ∈ active
  · by_cases h2 : (active.erase (normalizeDomain domain)).isEmpty = true
    · by_cases h3 : clearOk = true
      · right
        left
        simp [removeDomain, h1, h2, h3]
      · right
        right
        simp [removeDomain, h1, h2, h3]
    · by_cases h4 : rebuildOk (active.erase (normalizeDomain domain)) = true
      · right
        left
        simp [removeDomain, h1, h2, h4]
      · right
        right
        simp [removeDomain, h1, h2, h4]
  · left
    simp [removeDomain, h1]

theorem addDomain_fst_lower (rebuildOk : List String → Bool)
    (active : List String) (domain : String)
    (h : ∀ d ∈ active, goToLower d = d) :
    ∀ d ∈ (addDomain rebuildOk active domain).1, goToLower d = d := by
  rcases addDomain_fst_cases rebuildOk active domain with hc | hc <;> rw [hc]
  · exact h
  · intro d hd
    rcases List.mem_append.mp hd with hm | hm
    · exact h d hm
    · have hde : d = normalizeDomain domain := by simpa using hm
      rw [hde]
      exact normalizeDomain_lower domain

theorem removeDomain_fst_lower (rebuildOk : List String → Bool) (clearOk : Bool)
    (active : List String) (domain : String)
    (h : ∀ d ∈ active, goToLower d = d) :
    ∀ d ∈ (removeDomain rebuildOk clearOk active domain).1, goToLower d = d := by
  rcases removeDomain_fst_cases rebuildOk clearOk active domain with hc | hc | hc <;> rw [hc]
  · exact h
  · intro d hd
    exact h d (List.mem_of_mem_erase hd)
  · intro d hd
    rcases List.mem_append.mp hd with hm | hm
    · exact h d (List.mem_of_mem_erase hm)
    · exact h d (List.drop_subset _ _ hm)

theorem removeDomain_fst_inv_ok (rebuildOk : List String → Bool) (clearOk : Bool)
    (active : List String) (domain : String)
    (hrb : ∀ l, rebuildOk l = true) (hclear : clearOk = true)
    (h : lowercaseNodup active) :
    lowercaseNodup (removeDomain rebuildOk clearOk active domain).1 := by
  have herase : lowercaseNodup (active.erase (normalizeDomain domain)) :=
    ⟨fun d hd => h.1 d (List.mem_of_mem_erase hd), h.2.erase _⟩
  by_cases h1 : normalizeDomain domain ∈ active
  · by_cases h2 : (active.erase (normalizeDomain domain)).isEmpty = true
    · simpa [removeDomain, h1, h2, hclear] using herase
    · simpa [removeDomain, h1, h2,
        hrb (active.erase (normalizeDomain domain))] using herase
  · simpa [removeDomain, h1] using h

theorem runBlockCmds_lower (rebuildOk : List String → Bool) (clearOk : Bool)
    (cmds : List BlockCmd) :
    ∀ active, (∀ d ∈ active, goToLower d = d) →
      ∀ d ∈ runBlockCmds rebuildOk clearOk active cmds, goToLower d = d := by
  induction cmds with
  | nil => intro active h; exact h
  | cons c cs ih =>
      intro active h
      rw [runBlockCmds, List.foldl_cons]
      cases c with
      | add d => exact ih _ (addDomain_fst_lower rebuildOk active d h)
      | remove d => exact ih _ (removeDomain_fst_lower rebuildOk clearOk active d h)

theorem runBlockCmds_inv_ok (rebuildOk : List String → Bool) (clearOk : Bool)
    (cmds : List BlockCmd)
    (hrb : ∀ l, rebuildOk l = true) (hclear : clearOk = true) :
    ∀ active, lowercaseNodup active →
      lowercaseNodup (runBlockCmds rebuildOk clearOk active cmds) := by
  induction cmds with
  | nil => intro active h; exact h
  | cons c cs ih =>
      intro active h
      rw [runBlockCmds, List.foldl_cons]
      cases c with
      | add d => exact ih _ (addDomain_fst_inv rebuildOk active d h)
      | remove d =>
          exact ih _ (removeDomain_fst_inv_ok rebuildOk clearOk active d hrb hclear h)

/-- C8 counterexample: the blocklist is not duplicate-free after every
add/remove sequence.  From the empty blocklist, adding a.example,
b.example and c.example and then removing a.example while the rebuild of
[b.example, c.example] fails leaves [b.example, c.example, c.example] —
the aliased rollback duplicates the final entry. -/
theorem blocklist_duplicate_counterexample :
    runBlockCmds (fun l => !(l == ["b.example", "c.example"])) true []
      [BlockCmd.add "a.example", BlockCmd.add "b.example",
       BlockCmd.add "c.example", BlockCmd.remove "a.example"] =
      ["b.example", "c.example", "c.example"] ∧
    ¬ (["b.example", "c.example", "c.example"] : List String).Nodup :=
  ⟨rfl, by decide⟩

/-- C8 (amended): AddDomain lowercases and trims its argument before
insertion, and adding a domain that is already present leaves the
blocklist unchanged, so block-add d; block-add d leaves exactly one
occurrence of d.  After any sequence of add/remove commands every entry
of blocked_domains is lowercase, and the list is additionally
duplicate-free whenever every firewall rebuild and clear in the sequence
succeeds; a remove whose rebuild fails can duplicate the final entry
through the aliased rollback. -/
theorem blocklist_normalized (rebuildOk : List String → Bool) (clearOk : Bool)
    (active : List String) (domain : String) (cmds : List BlockCmd)
    (hinv : lowercaseNodup active) :
    (normalizeDomain domain ∈ active →
      (addDomain rebuildOk active domain).1 = active ∧
      (normalizeDomain domain ≠ "" →
        addDomain rebuildOk active domain = (active, Except.ok false))) ∧
    (normalizeDomain domain ∉ active → normalizeDomain domain ≠ "" →
      rebuildOk (active ++ [normalizeDomain domain]) = true →
      addDomain rebuildOk active domain =
        (active ++ [normalizeDomain domain], Except.ok true)) ∧
    ((∀ l, rebuildOk l = true) → normalizeDomain domain ≠ "" →
      (applyBlockCmd rebuildOk clearOk
          (applyBlockCmd rebuildOk clearOk active (BlockCmd.add domain))
          (BlockCmd.add domain)).count (normalizeDomain domain) = 1) ∧
    (∀ d ∈ runBlockCmds rebuildOk clearOk active cmds, goToLower d = d) ∧
    ((∀ l, rebuildOk l = true) → clearOk = true →
      lowercaseNodup (runBlockCmds rebuildOk clearOk active cmds)) := by
  refine ⟨?_, ?_, ?_,
    runBlockCmds_lower rebuildOk clearOk cmds active hinv.1,
    fun hrb hclear =>
      runBlockCmds_inv_ok rebuildOk clearOk cmds hrb hclear active hinv⟩
  · intro hmem
    constructor
    · by_cases h1 : normalizeDomain domain = ""
      · simp [addDomain, h1]
      · simp [addDomain, h1, hmem]
    · intro hne
      simp [addDomain, hne, hmem]
  · intro hnm hne hrb
    simp [addDomain, hne, hnm, hrb]
  · intro hrb hne
    by_cases hmem : normalizeDomain domain ∈ active
    · have hstep : (addDomain rebuildOk active domain).1 = active := by
        simp [addDomain, hne, hmem]
      simp only [applyBlockCmd, hstep]
      exact List.count_eq_one_of_mem hinv.2 hmem
    · have hstep1 : (addDomain rebuildOk active domain).1 =
          active ++ [normalizeDomain domain] := by
        simp [addDomain, hne, hmem, hrb (active ++ [normalizeDomain domain])]
      have hmem2 : normalizeDomain domain ∈ active ++ [normalizeDomain domain] := by
        simp
      have hstep2 : (addDomain rebuildOk (active ++ [normalizeDomain domain]) domain).1 =
          active ++ [normalizeDomain domain] := by
        simp [addDomain, hne, hmem2]
      simp only [applyBlockCmd, hstep1, hstep2]
      rw [List.count_append]
      rw [List.count_eq_zero_of_not_mem hmem]
      simp

/-- Witness for `blocklist_normalized`: a double add of a mixed-case
domain into the empty blocklist, and a sequence of two adds and a remove
whose rebuilds all succeed. -/
theorem blocklist_normalized_witness :
    lowercaseNodup ([] : List String) ∧
    ((applyBlockCmd (fun _ => true) true
        (applyBlockCmd (fun _ => true) true [] (BlockCmd.add "D.Example"))
        (BlockCmd.add "D.Example")).count (normalizeDomain "D.Example") = 1) ∧
    (∀ d ∈ runBlockCmds (fun _ => true) true []
        [BlockCmd.add "A.com", BlockCmd.add "a.com", BlockCmd.remove " A.COM "],
      goToLower d = d) ∧
    lowercaseNodup (runBlockCmds (fun _ => true) true []
      [BlockCmd.add "A.com", BlockCmd.add "a.com", BlockCmd.remove " A.COM "]) :=
  ⟨⟨by simp, List.nodup_nil⟩,
   (blocklist_normalized (fun _ => true) true [] "D.Example" []
      ⟨by simp, List.nodup_nil⟩).2.2.1 (fun _ => rfl) (by decide),
   (blocklist_normalized (fun _ => true) true [] "irrelevant"
      [BlockCmd.add "A.com", BlockCmd.add "a.com", BlockCmd.remove " A.COM "]
      ⟨by simp, List.nodup_nil⟩).2.2.2.1,
   (blocklist_normalized (fun _ => true) true [] "irrelevant"
      [BlockCmd.add "A.com", BlockCmd.add "a.com", BlockCmd.remove " A.COM "]
      ⟨by simp, List.nodup_nil⟩).2.2.2.2 (fun _ => rfl) rfl⟩

/-! ### Escalation-cooldown lemmas -/

theorem escalate_suppressed (now : Nat) (st : TamperState) (t : Nat)
    (hlast : st.lastEscalation = some t)
    (hcool : now - t < escalationCooldown) :
    escalate now st = (st, false) := by
  rw [escalate, hlast]
  show (if now - t < escalationCooldown then (st, false)
        else (escalateActions now st, true)) = _
  rw [if_pos hcool]

theorem escalate_passed (now : Nat) (st : TamperState) (t : Nat)
    (hlast : st.lastEscalation = some t)
    (hcool : ¬ (now - t < escalationCooldown)) :
    escalate now st = (escalateActions now st, true) := by
  rw [escalate, hlast]
  show (if now - t < escalationCooldown then (st, false)
        else (escalateActions now st, true)) = _
  rw [if_neg hcool]

theorem runEscalations_sep (times : List Nat) :
    ∀ st : TamperState, times.Pairwise (· ≤ ·) →
      (∀ u ∈ times, ∀ t0, st.lastEscalation = some t0 → t0 ≤ u) →
      List.Chain' (fun a b => a + escalationCooldown ≤ b)
        (optTime st.lastEscalation ++ (runEscalations st times).2) := by
  induction times with
  | nil =>
      intro st _ _
      rw [runEscalations]
      cases h : st.lastEscalation <;> simp [optTime]
  | cons t ts ih =>
      intro st hp hge
      obtain ⟨hhead, hp2⟩ := List.pairwise_cons.mp hp
      cases hle : st.lastEscalation with
      | none =>
          have hesc : escalate t st = (escalateActions t st, true) := by
            rw [escalate, hle]
          have hlast2 : (escalateActions t st).lastEscalation = some t := rfl
          have hrec := ih (escalateActions t st) hp2
            (by
              intro u hu t0 ht0
              rw [hlast2] at ht0
              cases ht0
              exact hhead u hu)
          rw [hlast2] at hrec
          rw [runEscalations]
          simp only [hesc, hle, optTime, List.nil_append]
          simpa [optTime] using hrec
      | some t0 =>
          by_cases hcool : t - t0 < escalationCooldown
          · have hesc := escalate_suppressed t st t0 hle hcool
            have hrec := ih st hp2
              (by
                intro u hu t1 ht1
                exact hge u (List.mem_cons_of_mem t hu) t1 ht1)
            rw [hle] at hrec
            rw [runEscalations]
            simp only [hesc, hle, optTime]
            simpa [optTime] using hrec
          · have hesc := escalate_passed t st t0 hle hcool
            have hlast2 : (escalateActions t st).lastEscalation = some t := rfl
            have hrec := ih (escalateActions t st) hp2
              (by
                intro u hu t1 ht1
                rw [hlast2] at ht1
                cases ht1
                exact hhead u hu)
            rw [hlast2] at hrec
            simp only [optTime] at hrec
            have ht0t : t0 + escalationCooldown ≤ t := by
              have ht0le : t0 ≤ t := hge t (List.mem_cons_self t ts) t0 hle
              omega
            rw [runEscalations]
            simp only [hesc, hle, optTime]
            exact List.Chain'.cons ht0t hrec

theorem sep_pairwise (l : List Nat)
    (h : List.Chain' (fun a b => a + escalationCooldown ≤ b) l) :
    l.Pairwise (fun a b => a + escalationCooldown ≤ b) := by
  haveI : IsTrans Nat (fun a b => a + escalationCooldown ≤ b) := by
    constructor
    intro a b c hab hbc
    omega
  exact List.chain'_iff_pairwise.mp h

theorem pairwise_sep_window (l : List Nat) (w : Nat)
    (h : l.Pairwise (fun a b => a + escalationCooldown ≤ b)) :
    (l.filter (fun t => decide (w ≤ t ∧ t < w + escalationCooldown))).length ≤ 1 := by
  have hpf : (l.filter (fun t => decide (w ≤ t ∧ t < w + escalationCooldown))).Pairwise
      (fun a b => a + escalationCooldown ≤ b) :=
    h.sublist (List.filter_sublist l)
  rcases hfl : l.filter (fun t => decide (w ≤ t ∧ t < w + escalationCooldown)) with
    _ | ⟨x, _ | ⟨y, tl⟩⟩
  · simp
  · simp
  · exfalso
    rw [hfl] at hpf
    have hxy : x + escalationCooldown ≤ y := (List.pairwise_cons.mp hpf).1 y (by simp)
    have hxmem : x ∈ l.filter (fun t => decide (w ≤ t ∧ t < w + escalationCooldown)) := by
      rw [hfl]
      simp
    have hymem : y ∈ l.filter (fun t => decide (w ≤ t ∧ t < w + escalationCooldown)) := by
      rw [hfl]
      simp
    have hx := List.of_mem_filter hxmem
    have hy := List.of_mem_filter hymem
    simp only [decide_eq_true_eq] at hx hy
    omega

/-- C3: escalation attempts at nondecreasing times, starting from a state
with no previous escalation, change the failure score at most once in any
30-minute window; concretely, the score-changing escalations are at least
the cooldown apart, and a call to escalate made less than 30 minutes
after the previous score-changing escalation returns with the state
unchanged and does not double the score. -/
theorem escalation_cooldown_window (times : List Nat) (w : Nat)
    (st st2 : TamperState) (t2 now : Nat)
    (hsorted : times.Pairwise (· ≤ ·)) (h0 : st.lastEscalation = none)
    (hlast : st2.lastEscalation = some t2)
    (hcool : now - t2 < escalationCooldown) :
    (((runEscalations st times).2.filter
        (fun t => decide (w ≤ t ∧ t < w + escalationCooldown))).length ≤ 1) ∧
    escalate now st2 = (st2, false) := by
  constructor
  · have hchain := runEscalations_sep times st hsorted
      (by
        intro u hu t0 ht0
        rw [h0] at ht0
        cases ht0)
    rw [h0] at hchain
    simp only [optTime, List.nil_append] at hchain
    exact pairwise_sep_window _ w (sep_pairwise _ hchain)
  · exact escalate_suppressed now st2 t2 hlast hcool

/-- Witness for `escalation_cooldown_window`: five failing checks in five
minutes followed by one after the cooldown, and a suppressed call 100
seconds after an escalation. -/
theorem escalation_cooldown_window_witness :
    ([0, 60, 120, 180, 240, 2000] : List Nat).Pairwise (· ≤ ·) ∧
    (({ cs := defaultComplianceStatus, networkProfile := "standard",
        lastEscalation := none } : TamperState).lastEscalation = none) ∧
    (({ cs := defaultComplianceStatus, networkProfile := "black-hole",
        lastEscalation := some 100 } : TamperState).lastEscalation = some 100) ∧
    (200 - 100 < escalationCooldown) ∧
    ((((runEscalations
          { cs := defaultComplianceStatus, networkProfile := "standard",
            lastEscalation := none } [0, 60, 120, 180, 240, 2000]).2.filter
        (fun t => decide (0 ≤ t ∧ t < 0 + escalationCooldown))).length ≤ 1) ∧
      escalate 200 { cs := defaultComplianceStatus, networkProfile := "black-hole",
                     lastEscalation := some 100 } =
        ({ cs := defaultComplianceStatus, networkProfile := "black-hole",
           lastEscalation := some 100 }, false)) :=
  ⟨by decide, rfl, rfl, by decide,
   escalation_cooldown_window [0, 60, 120, 180, 240, 2000] 0
     { cs := defaultComplianceStatus, networkProfile := "standard",
       lastEscalation := none }
     { cs := defaultComplianceStatus, networkProfile := "black-hole",
       lastEscalation := some 100 } 100 200 (by decide) rfl rfl (by decide)⟩

end VexSpec
